import Mathlib

/-!
Verification development for the structured-id demo repository.

The repository ships the demo UI (App components) and consumes the
structured-id codec library as an npm dependency, so the codec itself is
not present in the repository sources.  The codec (configuration
resolver, alphabet/checksum engine, generator, validator, formatter) is
therefore modelled here from the specification, while the demo-side
handlers (handleValidate, the pretty formatter wrapper and the option
controls) are translated directly from the React sources.
-/

namespace StructuredId

/-- Modelled from the spec (§3 Data model): the two character sets. -/
inductive Charset where
  | numeric
  | alphanumeric
deriving DecidableEq

/-- Modelled from the spec (§3 Data model): the checksum algorithms. -/
inductive Algorithm where
  | none
  | luhn
  | mod36
deriving DecidableEq

/-- Modelled from the spec (§7 Error handling): the error taxonomy of the
codec (the structured-id library, absent from the repository sources). -/
inductive CodecError where
  | InvalidShape
  | IncompatibleAlgorithm
  | BodyTooShort
  | ShapeMismatch
  | EntropySourceUnavailable
deriving DecidableEq

/-- Modelled from the spec (§3, §6): the configuration record passed to
every codec operation.  The separator and entropy source are orthogonal
and passed separately, as in the spec. -/
structure Config where
  charset : Charset
  algorithm : Algorithm
  groups : Nat
  groupSize : Nat
deriving DecidableEq

/-- Modelled from the spec (§3): totalLength = groups × groupSize. -/
def Config.totalLength (c : Config) : Nat := c.groups * c.groupSize

/-- Modelled from the spec (§4.1): an algorithm is legal for a charset iff
it is None, or Luhn with Numeric, or Mod36 with Alphanumeric. -/
def compat : Charset → Algorithm → Bool
  | _, Algorithm.none => true
  | Charset.numeric, Algorithm.luhn => true
  | Charset.alphanumeric, Algorithm.mod36 => true
  | _, _ => false

/-- Modelled from the spec (§4.1 Configuration resolver): fails with
IncompatibleAlgorithm for an algorithm/charset mismatch and with
InvalidShape when groups < 1 or groupSize < 1.  The compatibility check
is performed first, so that (per §8) charset=Numeric, algorithm=Mod36
fails with IncompatibleAlgorithm for every value of groups/groupSize. -/
def resolveConfig (c : Config) : Except CodecError Config :=
  if compat c.charset c.algorithm = false then .error .IncompatibleAlgorithm
  else if c.groups < 1 ∨ c.groupSize < 1 then .error .InvalidShape
  else .ok c

/-- Modelled from the spec (§3): the alphabet of each charset. -/
def alphabet : Charset → List Char
  | Charset.numeric => "0123456789".data
  | Charset.alphanumeric => "0123456789ABCDEFGHIJKLMNOPQRSTUVWXYZ".data

/-- Alphabet size (10 or 36). -/
def base (cs : Charset) : Nat := (alphabet cs).length

/-- Modelled from the spec (§4.2): render a numeric value as the alphabet
character at that index. -/
def idxChar (cs : Charset) (v : Nat) : Char := (alphabet cs).getD v '0'

/-- Modelled from the spec (§4.2): digits map to 0..9 (character-code
arithmetic). -/
def digitVal (c : Char) : Option Nat :=
  if '0'.toNat ≤ c.toNat ∧ c.toNat ≤ '9'.toNat then some (c.toNat - '0'.toNat)
  else Option.none

/-- Modelled from the spec (§4.2 value mapping): Numeric maps '0'..'9' to
0..9; Alphanumeric additionally maps 'A'..'Z' (case-folded) to 10..35. -/
def charValue : Charset → Char → Option Nat
  | Charset.numeric, c => digitVal c
  | Charset.alphanumeric, c =>
    match digitVal c with
    | some v => some v
    | Option.none =>
      let u := c.toUpper
      if 'A'.toNat ≤ u.toNat ∧ u.toNat ≤ 'Z'.toNat then
        some (u.toNat - 'A'.toNat + 10)
      else Option.none

/-- Map every character of a string to its numeric value; Option.none if
any character is outside the charset. -/
def charValues (cs : Charset) : List Char → Option (List Nat)
  | [] => some []
  | c :: rest =>
    match charValue cs c, charValues cs rest with
    | some v, some vs => some (v :: vs)
    | _, _ => Option.none

/-- Modelled from the spec (§4.2 Luhn): a doubled value ≥ 10 has 9
subtracted (equivalent to summing its two decimal digits). -/
def luhnReduce (x : Nat) : Nat := if 10 ≤ x then x - 9 else x

/-- Luhn sum over a digit sequence given rightmost-first, with the flag
telling whether the head digit is doubled. -/
def luhnSumRev : Bool → List Nat → Nat
  | _, [] => 0
  | true, v :: rest => luhnReduce (2 * v) + luhnSumRev false rest
  | false, v :: rest => v + luhnSumRev true rest

/-- Modelled from the spec (§4.2 Luhn): starting from the rightmost body
digit, double every second digit moving leftward, reduce doubled values
≥ 10 by subtracting 9, and sum all resulting values. -/
def luhnSum (body : List Nat) : Nat := luhnSumRev true body.reverse

/-- Modelled from the spec (§4.2 Luhn): the checksum digit is the d in
[0,9] with (sum + d) mod 10 = 0; fails with BodyTooShort on an empty
body. -/
def luhnChecksum (body : List Nat) : Except CodecError Nat :=
  if body.isEmpty then .error .BodyTooShort
  else .ok ((10 - luhnSum body % 10) % 10)

/-- Modelled from the spec (§4.2 Mod36): a weight-2 product ≥ 36 is
reduced by subtracting 35. -/
def mod36Reduce (w p : Nat) : Nat := if w = 2 ∧ 36 ≤ p then p - 35 else p

/-- Mod36 weighted sum, left to right, with the flag telling whether the
head character carries weight 2 (weights cycle 2,1,2,1,…). -/
def mod36SumFrom : Bool → List Nat → Nat
  | _, [] => 0
  | b, v :: rest =>
    let w := if b then 2 else 1
    mod36Reduce w (w * v) + mod36SumFrom (!b) rest

/-- Modelled from the spec (§4.2 Mod36): each body character, left to
right and 1-indexed, gets a weight cycling 2,1,2,1,…; products are
reduced and summed. -/
def mod36Sum (body : List Nat) : Nat := mod36SumFrom true body

/-- Modelled from the spec (§4.2 Mod36): the checksum value is the d in
[0,35] with (sum + d) mod 36 = 0; fails with BodyTooShort on an empty
body. -/
def mod36Checksum (body : List Nat) : Except CodecError Nat :=
  if body.isEmpty then .error .BodyTooShort
  else .ok ((36 - mod36Sum body % 36) % 36)

/-- The draw sequence taken from an entropy source: draw number i is
source i.  An entropy source (spec §3) produces index values in
[0, alphabetSize). -/
def drawList (source : Nat → Nat) (n : Nat) : List Nat :=
  (List.range n).map source

/-- Modelled from the spec (§4.3 Generator): resolve the configuration;
with algorithm None draw totalLength indices and map them to characters;
otherwise draw totalLength − 1 indices for the body, compute the checksum
character over that body and append it. -/
def generateId (cfg : Config) (source : Nat → Nat) : Except CodecError String :=
  match resolveConfig cfg with
  | .error e => .error e
  | .ok _ =>
    match cfg.algorithm with
    | Algorithm.none =>
      .ok (String.mk ((drawList source cfg.totalLength).map (idxChar cfg.charset)))
    | Algorithm.luhn =>
      let body := drawList source (cfg.totalLength - 1)
      match luhnChecksum body with
      | .error e => .error e
      | .ok d => .ok (String.mk ((body ++ [d]).map (idxChar cfg.charset)))
    | Algorithm.mod36 =>
      let body := drawList source (cfg.totalLength - 1)
      match mod36Checksum body with
      | .error e => .error e
      | .ok d => .ok (String.mk ((body ++ [d]).map (idxChar cfg.charset)))

/-- Modelled from the spec (§4.4 Validator): after resolving the
configuration, short-circuit to false on a wrong length or an
out-of-alphabet character; with algorithm None that is all; otherwise
recompute the checksum over the body and compare it to the supplied
final character's value.  Per §7, configuration errors are the only
propagated failures; data errors are reported as false.  The per-step
checksum comparison (§4.4 step 4) is checkAlgorithm below, used by
validateId. -/
def checkAlgorithm : Algorithm → List Nat → Except CodecError Bool
  | Algorithm.none, _ => .ok true
  | Algorithm.luhn, vals =>
    match luhnChecksum vals.dropLast with
    | .error e => .error e
    | .ok d => .ok (decide (vals.getLast? = some d))
  | Algorithm.mod36, vals =>
    match mod36Checksum vals.dropLast with
    | .error e => .error e
    | .ok d => .ok (decide (vals.getLast? = some d))

def validateId (candidate : String) (cfg : Config) : Except CodecError Bool :=
  match resolveConfig cfg with
  | .error e => .error e
  | .ok _ =>
    let l := candidate.data
    if l.length ≠ cfg.totalLength then .ok false
    else
      match charValues cfg.charset l with
      | Option.none => .ok false
      | some vals => checkAlgorithm cfg.algorithm vals

/-- Split a canonical id into groups chunks of groupSize characters. -/
def groupChunks : Nat → Nat → List Char → List (List Char)
  | 0, _, _ => []
  | g + 1, k, l => l.take k :: groupChunks g k (l.drop k)

/-- Interleave the separator between successive groups. -/
def joinSep (sep : List Char) : List (List Char) → List Char
  | [] => []
  | [g] => g
  | g :: g2 :: gs => g ++ sep ++ joinSep sep (g2 :: gs)

/-- Modelled from the spec (§4.5 Formatter): insert the separator between
every groupSize-character run, producing groups groups; fails with
ShapeMismatch when the canonical length differs from totalLength. -/
def formatId (canonical : String) (cfg : Config) (sep : String) : Except CodecError String :=
  if canonical.length ≠ cfg.totalLength then .error .ShapeMismatch
  else .ok (String.mk (joinSep sep.data (groupChunks cfg.groups cfg.groupSize canonical.data)))

/-- Does sep occur at the head of l? -/
def beginsWith : List Char → List Char → Bool
  | [], _ => true
  | _ :: _, [] => false
  | s :: ss, c :: cs => s == c && beginsWith ss cs

/-- Remove every occurrence of sep from l, scanning left to right. -/
def removeSeps (sep : List Char) : List Char → List Char
  | [] => []
  | c :: rest =>
    if sep ≠ [] ∧ beginsWith sep (c :: rest) then
      removeSeps sep (List.drop (sep.length - 1) rest)
    else
      c :: removeSeps sep rest
termination_by l => l.length
decreasing_by
  · simp [List.length_drop]
    omega
  · simp

/-- Modelled from the spec (§4.5 Formatter): parseDisplay removes the
occurrences of the separator and fails with ShapeMismatch if the
stripped string's length differs from totalLength. -/
def parseDisplay (display : String) (cfg : Config) (sep : String) : Except CodecError String :=
  if (removeSeps sep.data display.data).length ≠ cfg.totalLength then .error .ShapeMismatch
  else .ok (String.mk (removeSeps sep.data display.data))

instance {ε α : Type _} [DecidableEq ε] [DecidableEq α] : DecidableEq (Except ε α)
  | .error a, .error b =>
    if h : a = b then .isTrue (by rw [h])
    else .isFalse (fun hh => by injection hh with h2; exact h h2)
  | .error _, .ok _ => .isFalse (fun hh => Except.noConfusion hh)
  | .ok _, .error _ => .isFalse (fun hh => Except.noConfusion hh)
  | .ok a, .ok b =>
    if h : a = b then .isTrue (by rw [h])
    else .isFalse (fun hh => by injection hh with h2; exact h h2)

/-- Translated from the demo source (src/unnamed/part_002 and
src/src/App.tsx, the pretty useMemo): format the current id with the
current settings, falling back to the raw id when formatId throws, and
to the empty string when there is no id. -/
def pretty (id : String) (cfg : Config) (sep : String) : String :=
  if id = "" then ""
  else
    match formatId id cfg sep with
    | .ok f => f
    | .error _ => id

/-- Translated from the demo source (src/unnamed/part_002, the
groups/groupSize number inputs): Math.max(1, Number(value) || 1).
The argument models Number(e.target.value): Option.none is NaN, and the
JS or-expression replaces NaN and 0 with 1. -/
def sanitizeNumberInput (v : Option ℚ) : ℚ :=
  max 1 (match v with
    | Option.none => 1
    | some q => if q = 0 then 1 else q)

/-- Translated from the demo source (src/unnamed/part_002, the algorithm
Select): the options offered are none/luhn for numeric and none/mod36
for alphanumeric. -/
def algoOptions : Charset → List Algorithm
  | Charset.numeric => [Algorithm.none, Algorithm.luhn]
  | Charset.alphanumeric => [Algorithm.none, Algorithm.mod36]

/-- The demo configuration state (src/unnamed/part_002): charset,
algorithm, groups and groupSize as held in React state.  groups and
groupSize are JS numbers, modelled as rationals. -/
structure DemoState where
  charset : Charset
  algorithm : Algorithm
  groups : ℚ
  groupSize : ℚ
deriving DecidableEq

/-- The demo's initial state (src/unnamed/part_002 useState calls). -/
def demoInit : DemoState :=
  { charset := Charset.numeric, algorithm := Algorithm.none, groups := 4, groupSize := 4 }

/-- The configuration-changing user interactions of the demo. -/
inductive DemoEvent where
  | setCharset (c : Charset)
  | setAlgorithm (a : Algorithm)
  | setGroups (v : Option ℚ)
  | setGroupSize (v : Option ℚ)

/-- Translated from the demo source (src/unnamed/part_002): the charset
Select resets an incompatible algorithm to none, the algorithm Select
stores the chosen value, and the number inputs clamp through
sanitizeNumberInput. -/
def demoStep (s : DemoState) : DemoEvent → DemoState
  | DemoEvent.setCharset c =>
    { s with
      charset := c
      algorithm :=
        if c = Charset.numeric ∧ s.algorithm = Algorithm.mod36 then Algorithm.none
        else if c = Charset.alphanumeric ∧ s.algorithm = Algorithm.luhn then Algorithm.none
        else s.algorithm }
  | DemoEvent.setAlgorithm a => { s with algorithm := a }
  | DemoEvent.setGroups v => { s with groups := sanitizeNumberInput v }
  | DemoEvent.setGroupSize v => { s with groupSize := sanitizeNumberInput v }

/-- The events the UI can actually emit in a state: the algorithm Select
only offers the options listed for the current charset. -/
def LegalEvent (s : DemoState) : DemoEvent → Prop
  | DemoEvent.setAlgorithm a => a ∈ algoOptions s.charset
  | _ => True

/-- States the demo UI can reach from its initial state through legal
interactions. -/
inductive DemoReachable : DemoState → Prop
  | init : DemoReachable demoInit
  | step {s : DemoState} {e : DemoEvent} :
      DemoReachable s → LegalEvent s e → DemoReachable (demoStep s e)

/-- The configuration invariant the demo maintains. -/
def demoInv (s : DemoState) : Prop :=
  1 ≤ s.groups ∧ 1 ≤ s.groupSize ∧ compat s.charset s.algorithm = true

/-- The validate-mode UI state (src/unnamed/part_002): the generated id,
the text field contents and the last validation result. -/
structure ValidateUIState where
  id : String
  toValidate : String
  isValid : Option Bool
deriving DecidableEq

/-- Translated from the demo source (src/unnamed/part_002 handleValidate,
identical in src/src/App.tsx and src/unnamed/part_003):
target = toValidate || id (JS: the empty string is falsy), then
setIsValid(validateId(target, config)); a propagated configuration error
leaves the state unchanged (the exception escapes before setIsValid). -/
def handleValidateAction (cfg : Config) (s : ValidateUIState) :
    Except CodecError ValidateUIState :=
  match validateId (if s.toValidate = "" then s.id else s.toValidate) cfg with
  | .error e => .error e
  | .ok ok => .ok { s with isValid := some ok }

end StructuredId

namespace StructuredId

/-! ### Basic facts about the alphabet and value mapping -/

theorem base_numeric : base Charset.numeric = 10 := by decide

theorem base_alphanumeric : base Charset.alphanumeric = 36 := by decide

theorem charValue_idxChar_numeric :
    ∀ v, v < 10 → charValue Charset.numeric (idxChar Charset.numeric v) = some v := by
  decide

theorem charValue_idxChar_alphanumeric :
    ∀ v, v < 36 → charValue Charset.alphanumeric (idxChar Charset.alphanumeric v) = some v := by
  decide

theorem charValue_idxChar {cs : Charset} {v : Nat} (h : v < base cs) :
    charValue cs (idxChar cs v) = some v := by
  cases cs
  · exact charValue_idxChar_numeric v (by simpa [base_numeric] using h)
  · exact charValue_idxChar_alphanumeric v (by simpa [base_alphanumeric] using h)

theorem charValues_map_idxChar {cs : Charset} :
    ∀ {vals : List Nat}, (∀ v ∈ vals, v < base cs) →
      charValues cs (vals.map (idxChar cs)) = some vals := by
  intro vals
  induction vals with
  | nil => intro _; rfl
  | cons v vs ih =>
    intro h
    have hv : v < base cs := h v (List.mem_cons_self _ _)
    have hvs := ih (fun x hx => h x (List.mem_cons_of_mem _ hx))
    simp only [List.map_cons, charValues, charValue_idxChar hv, hvs]

theorem charValues_length {cs : Charset} :
    ∀ {l : List Char} {vals : List Nat}, charValues cs l = some vals →
      vals.length = l.length := by
  intro l
  induction l with
  | nil => intro vals h; simp [charValues] at h; simp [← h]
  | cons c rest ih =>
    intro vals h
    simp only [charValues] at h
    cases hc : charValue cs c with
    | none => rw [hc] at h; simp at h
    | some v =>
      rw [hc] at h
      cases hr : charValues cs rest with
      | none => rw [hr] at h; simp at h
      | some vs =>
        rw [hr] at h
        simp only [Option.some.injEq] at h
        subst h
        simp [ih hr]

/-! ### The configuration resolver -/

theorem resolveConfig_ok_iff {cfg c' : Config} :
    resolveConfig cfg = .ok c' ↔
      (c' = cfg ∧ compat cfg.charset cfg.algorithm = true ∧
        1 ≤ cfg.groups ∧ 1 ≤ cfg.groupSize) := by
  unfold resolveConfig
  split_ifs with h1 h2
  · simp only [Bool.not_eq_false] at *
    constructor
    · intro h; cases h
    · rintro ⟨-, hc, -⟩; rw [h1] at hc; cases hc
  · constructor
    · intro h; cases h
    · rintro ⟨-, -, hg, hgs⟩; omega
  · simp only [Bool.not_eq_false] at h1
    constructor
    · intro h
      cases h
      exact ⟨rfl, h1, by omega, by omega⟩
    · rintro ⟨h, -⟩; rw [h]

theorem resolveConfig_ok {cfg : Config} (hc : compat cfg.charset cfg.algorithm = true)
    (hg : 1 ≤ cfg.groups) (hgs : 1 ≤ cfg.groupSize) :
    resolveConfig cfg = .ok cfg :=
  resolveConfig_ok_iff.mpr ⟨rfl, hc, hg, hgs⟩

theorem compat_luhn_numeric {cs : Charset} (h : compat cs Algorithm.luhn = true) :
    cs = Charset.numeric := by
  cases cs
  · rfl
  · cases h

theorem compat_mod36_alphanumeric {cs : Charset} (h : compat cs Algorithm.mod36 = true) :
    cs = Charset.alphanumeric := by
  cases cs
  · cases h
  · rfl

/-! ### Checksum arithmetic -/

theorem luhnChecksum_spec {body : List Nat} {d : Nat} (h : luhnChecksum body = .ok d) :
    d < 10 ∧ (luhnSum body + d) % 10 = 0 := by
  unfold luhnChecksum at h
  by_cases hb : body.isEmpty <;> simp [hb] at h
  refine ⟨?_, ?_⟩ <;> omega

theorem luhnChecksum_ne_nil {body : List Nat} {d : Nat} (h : luhnChecksum body = .ok d) :
    body ≠ [] := by
  intro hb
  rw [hb] at h
  simp [luhnChecksum] at h

theorem luhnChecksum_of_ne_nil {body : List Nat} (h : body ≠ []) :
    luhnChecksum body = .ok ((10 - luhnSum body % 10) % 10) := by
  simp [luhnChecksum, h]

theorem luhn_digit_unique {S d e : Nat} (hd : d < 10) (he : e < 10)
    (h1 : (S + d) % 10 = 0) (h2 : (S + e) % 10 = 0) : e = d := by
  omega

theorem mod36Checksum_spec {body : List Nat} {d : Nat} (h : mod36Checksum body = .ok d) :
    d < 36 ∧ (mod36Sum body + d) % 36 = 0 := by
  unfold mod36Checksum at h
  by_cases hb : body.isEmpty <;> simp [hb] at h
  refine ⟨?_, ?_⟩ <;> omega

theorem mod36Checksum_ne_nil {body : List Nat} {d : Nat} (h : mod36Checksum body = .ok d) :
    body ≠ [] := by
  intro hb
  rw [hb] at h
  simp [mod36Checksum] at h

theorem mod36Checksum_of_ne_nil {body : List Nat} (h : body ≠ []) :
    mod36Checksum body = .ok ((36 - mod36Sum body % 36) % 36) := by
  simp [mod36Checksum, h]

theorem mod36_digit_unique {S d e : Nat} (hd : d < 36) (he : e < 36)
    (h1 : (S + d) % 36 = 0) (h2 : (S + e) % 36 = 0) : e = d := by
  omega

end StructuredId

namespace StructuredId

/-! ### Unfolding lemmas for generation and validation -/

theorem validateId_unfold {cfg : Config} (hres : resolveConfig cfg = .ok cfg) (cand : String) :
    validateId cand cfg =
      (if cand.data.length ≠ cfg.totalLength then .ok false
      else
        match charValues cfg.charset cand.data with
        | Option.none => .ok false
        | some vals => checkAlgorithm cfg.algorithm vals) := by
  unfold validateId
  rw [hres]

theorem generateId_unfold {cfg : Config} (hres : resolveConfig cfg = .ok cfg)
    (source : Nat → Nat) :
    generateId cfg source =
      (match cfg.algorithm with
      | Algorithm.none =>
        .ok (String.mk ((drawList source cfg.totalLength).map (idxChar cfg.charset)))
      | Algorithm.luhn =>
        match luhnChecksum (drawList source (cfg.totalLength - 1)) with
        | .error e => .error e
        | .ok d =>
          .ok (String.mk ((drawList source (cfg.totalLength - 1) ++ [d]).map (idxChar cfg.charset)))
      | Algorithm.mod36 =>
        match mod36Checksum (drawList source (cfg.totalLength - 1)) with
        | .error e => .error e
        | .ok d =>
          .ok (String.mk ((drawList source (cfg.totalLength - 1) ++ [d]).map (idxChar cfg.charset)))) := by
  unfold generateId
  rw [hres]

theorem generateId_resolve {cfg : Config} {source : Nat → Nat} {id : String}
    (h : generateId cfg source = .ok id) : resolveConfig cfg = .ok cfg := by
  unfold generateId at h
  cases hres : resolveConfig cfg with
  | error e => rw [hres] at h; cases h
  | ok c' =>
    have := resolveConfig_ok_iff.mp hres
    rw [this.1]

theorem drawList_length (source : Nat → Nat) (n : Nat) : (drawList source n).length = n := by
  simp [drawList]

theorem drawList_lt {source : Nat → Nat} {b : Nat} (hsrc : ∀ i, source i < b) (n : Nat) :
    ∀ v ∈ drawList source n, v < b := by
  intro v hv
  simp only [drawList, List.mem_map] at hv
  obtain ⟨i, -, rfl⟩ := hv
  exact hsrc i

theorem string_mk_data (l : List Char) : (String.mk l).data = l := rfl

end StructuredId

namespace StructuredId

/-! ### Round trip: validating a generated identifier -/

theorem generate_ok_validate {cfg : Config} {source : Nat → Nat} {id : String}
    (hsrc : ∀ i, source i < base cfg.charset)
    (hgen : generateId cfg source = .ok id) :
    validateId id cfg = .ok true := by
  have hres := generateId_resolve hgen
  obtain ⟨-, hc, hg, hgs⟩ := resolveConfig_ok_iff.mp hres
  have hL : 0 < cfg.totalLength := by
    have := Nat.mul_pos hg hgs
    simpa [Config.totalLength] using this
  rw [generateId_unfold hres] at hgen
  rw [validateId_unfold hres]
  cases halg : cfg.algorithm with
  | none =>
    rw [halg] at hgen
    injection hgen with h
    subst h
    rw [if_neg (by simp [string_mk_data, drawList_length])]
    rw [string_mk_data, charValues_map_idxChar (drawList_lt hsrc _)]
    rfl
  | luhn =>
    rw [halg] at hgen
    cases hck : luhnChecksum (drawList source (cfg.totalLength - 1)) with
    | error e => rw [hck] at hgen; cases hgen
    | ok d =>
      rw [hck] at hgen
      injection hgen with h
      subst h
      rw [halg] at hc
      have hcs := compat_luhn_numeric hc
      have hd : d < 10 := (luhnChecksum_spec hck).1
      have hvals : ∀ v ∈ drawList source (cfg.totalLength - 1) ++ [d],
          v < base cfg.charset := by
        intro v hv
        rcases List.mem_append.mp hv with h | h
        · exact drawList_lt hsrc _ v h
        · simp only [List.mem_singleton] at h
          subst h
          rw [hcs, base_numeric]
          exact hd
      rw [if_neg (by simp [string_mk_data, drawList_length]; omega)]
      rw [string_mk_data, charValues_map_idxChar hvals]
      simp [checkAlgorithm, List.dropLast_concat, hck, List.getLast?_concat]
  | mod36 =>
    rw [halg] at hgen
    cases hck : mod36Checksum (drawList source (cfg.totalLength - 1)) with
    | error e => rw [hck] at hgen; cases hgen
    | ok d =>
      rw [hck] at hgen
      injection hgen with h
      subst h
      rw [halg] at hc
      have hcs := compat_mod36_alphanumeric hc
      have hd : d < 36 := (mod36Checksum_spec hck).1
      have hvals : ∀ v ∈ drawList source (cfg.totalLength - 1) ++ [d],
          v < base cfg.charset := by
        intro v hv
        rcases List.mem_append.mp hv with h | h
        · exact drawList_lt hsrc _ v h
        · simp only [List.mem_singleton] at h
          subst h
          rw [hcs, base_alphanumeric]
          exact hd
      rw [if_neg (by simp [string_mk_data, drawList_length]; omega)]
      rw [string_mk_data, charValues_map_idxChar hvals]
      simp [checkAlgorithm, List.dropLast_concat, hck, List.getLast?_concat]

theorem generateId_ok {cfg : Config} (source : Nat → Nat)
    (hc : compat cfg.charset cfg.algorithm = true)
    (hg : 1 ≤ cfg.groups) (hgs : 1 ≤ cfg.groupSize)
    (hlen : cfg.algorithm ≠ Algorithm.none → 2 ≤ cfg.totalLength) :
    ∃ id, generateId cfg source = .ok id := by
  have hres := resolveConfig_ok hc hg hgs
  rw [generateId_unfold hres source]
  cases halg : cfg.algorithm with
  | none => exact ⟨_, rfl⟩
  | luhn =>
    have h2 : 2 ≤ cfg.totalLength := hlen (by rw [halg]; intro h; cases h)
    have hne : drawList source (cfg.totalLength - 1) ≠ [] := by
      intro h
      have := congrArg List.length h
      rw [drawList_length] at this
      simp at this
      omega
    rw [luhnChecksum_of_ne_nil hne]
    exact ⟨_, rfl⟩
  | mod36 =>
    have h2 : 2 ≤ cfg.totalLength := hlen (by rw [halg]; intro h; cases h)
    have hne : drawList source (cfg.totalLength - 1) ≠ [] := by
      intro h
      have := congrArg List.length h
      rw [drawList_length] at this
      simp at this
      omega
    rw [mod36Checksum_of_ne_nil hne]
    exact ⟨_, rfl⟩

end StructuredId

namespace StructuredId

/-- C1, counterexample: the claim quantifies over every configuration with
groups ≥ 1, groupSize ≥ 1 and an algorithm legal for the charset.  With
charset Numeric, algorithm Luhn, groups = 1, groupSize = 1 the generator
has an empty body, fails with BodyTooShort (spec §4.2), and no generated
identifier validates true. -/
theorem C1_round_trip_counterexample :
    generateId ⟨Charset.numeric, Algorithm.luhn, 1, 1⟩ (fun _ => 0) =
      .error .BodyTooShort ∧
    (generateId ⟨Charset.numeric, Algorithm.luhn, 1, 1⟩ (fun _ => 0)).bind
      (fun id => validateId id ⟨Charset.numeric, Algorithm.luhn, 1, 1⟩) ≠
      .ok true :=
  ⟨rfl, fun h => Except.noConfusion h⟩

/-- C1 (amended): for every configuration whose charset/algorithm pair is
legal, whose groups and groupSize are at least 1 and whose totalLength is
at least 2 whenever a checksum algorithm is selected, and for every
entropy source (producing indices below the alphabet size), generation
succeeds and validating the freshly generated identifier with the same
configuration returns true. -/
theorem C1_round_trip (cfg : Config) (source : Nat → Nat)
    (hc : compat cfg.charset cfg.algorithm = true)
    (hg : 1 ≤ cfg.groups) (hgs : 1 ≤ cfg.groupSize)
    (hlen : cfg.algorithm ≠ Algorithm.none → 2 ≤ cfg.totalLength)
    (hsrc : ∀ i, source i < base cfg.charset) :
    ∃ id, generateId cfg source = .ok id ∧ validateId id cfg = .ok true := by
  obtain ⟨id, hid⟩ := generateId_ok source hc hg hgs hlen
  exact ⟨id, hid, generate_ok_validate hsrc hid⟩

/-- Witness for C1 at charset Numeric, algorithm Luhn, groups = 2,
groupSize = 1 and the constant entropy source 7. -/
theorem C1_round_trip_witness :
    ∃ id, generateId ⟨Charset.numeric, Algorithm.luhn, 2, 1⟩ (fun _ => 7) = .ok id ∧
      validateId id ⟨Charset.numeric, Algorithm.luhn, 2, 1⟩ = .ok true :=
  by
  apply C1_round_trip
  · decide
  · decide
  · decide
  · intro h; decide
  · intro i; decide

end StructuredId

namespace StructuredId

/-- C8: pairing charset=Numeric with algorithm=Mod36 (or
charset=Alphanumeric with algorithm=Luhn) fails resolution with
IncompatibleAlgorithm for every value of groups and groupSize; the error
is produced before any generation or validation runs (both operations
propagate it for every source and candidate); and resolution accepts an
algorithm exactly when it is None or the algorithm legal for the
charset (with a legal shape). -/
theorem C8_incompatible_algorithm :
    (∀ g gs, resolveConfig ⟨Charset.numeric, Algorithm.mod36, g, gs⟩ =
      .error .IncompatibleAlgorithm) ∧
    (∀ g gs, resolveConfig ⟨Charset.alphanumeric, Algorithm.luhn, g, gs⟩ =
      .error .IncompatibleAlgorithm) ∧
    (∀ g gs source, generateId ⟨Charset.numeric, Algorithm.mod36, g, gs⟩ source =
      .error .IncompatibleAlgorithm) ∧
    (∀ g gs cand, validateId cand ⟨Charset.numeric, Algorithm.mod36, g, gs⟩ =
      .error .IncompatibleAlgorithm) ∧
    (∀ cs alg, compat cs alg = true ↔
      (alg = Algorithm.none ∨ (cs = Charset.numeric ∧ alg = Algorithm.luhn) ∨
        (cs = Charset.alphanumeric ∧ alg = Algorithm.mod36))) ∧
    (∀ cfg : Config, (∃ c', resolveConfig cfg = .ok c') ↔
      (compat cfg.charset cfg.algorithm = true ∧ 1 ≤ cfg.groups ∧ 1 ≤ cfg.groupSize)) := by
  refine ⟨fun g gs => rfl, fun g gs => rfl, fun g gs source => rfl,
    fun g gs cand => ?_, fun cs alg => ?_, fun cfg => ?_⟩
  · unfold validateId
    rfl
  · cases cs <;> cases alg <;> simp [compat]
  · constructor
    · rintro ⟨c', hc'⟩
      exact (resolveConfig_ok_iff.mp hc').2
    · rintro ⟨hc, hg, hgs⟩
      exact ⟨cfg, resolveConfig_ok hc hg hgs⟩

end StructuredId

namespace StructuredId

/-- C5, counterexample: the claim quantifies over every configuration and
candidate.  With charset Numeric, algorithm Luhn, groups = 1,
groupSize = 1 the candidate "5" passes the length and alphabet checks but
the checksum body is empty, so validation propagates BodyTooShort (spec
§4.2/§7) instead of returning a boolean. -/
theorem C5_validate_total_counterexample :
    validateId "5" ⟨Charset.numeric, Algorithm.luhn, 1, 1⟩ =
      .error .BodyTooShort ∧
    validateId "5" ⟨Charset.numeric, Algorithm.luhn, 1, 1⟩ ≠ .ok true ∧
    validateId "5" ⟨Charset.numeric, Algorithm.luhn, 1, 1⟩ ≠ .ok false := by
  refine ⟨rfl, fun h => Except.noConfusion h, fun h => Except.noConfusion h⟩

/-- C5 (amended): for every configuration that resolves successfully and
has totalLength ≥ 2 whenever a checksum algorithm is selected, and for
every candidate string whatsoever, validateId returns a boolean and never
raises; it returns false for candidates whose length differs from
totalLength, for candidates containing a character outside the configured
alphabet (after the case-insensitive mapping), and for the empty string,
short-circuiting at the first failing step. -/
theorem C5_validate_total (cfg : Config) (cand : String)
    (hres : resolveConfig cfg = .ok cfg)
    (hlen2 : cfg.algorithm ≠ Algorithm.none → 2 ≤ cfg.totalLength) :
    (∃ b, validateId cand cfg = .ok b) ∧
    (cand.length ≠ cfg.totalLength → validateId cand cfg = .ok false) ∧
    (charValues cfg.charset cand.data = Option.none → validateId cand cfg = .ok false) ∧
    (cand = "" → validateId cand cfg = .ok false) := by
  obtain ⟨-, hc, hg, hgs⟩ := resolveConfig_ok_iff.mp hres
  have hL : 0 < cfg.totalLength := by
    have := Nat.mul_pos hg hgs
    simpa [Config.totalLength] using this
  have hval := validateId_unfold hres cand
  refine ⟨?_, ?_, ?_, ?_⟩
  · rw [hval]
    by_cases hl : cand.data.length ≠ cfg.totalLength
    · rw [if_pos hl]
      exact ⟨false, rfl⟩
    · rw [if_neg hl]
      push_neg at hl
      cases hcv : charValues cfg.charset cand.data with
      | none => exact ⟨false, rfl⟩
      | some vals =>
        cases halg : cfg.algorithm with
        | none => exact ⟨true, rfl⟩
        | luhn =>
          have h2 : 2 ≤ cfg.totalLength := hlen2 (by rw [halg]; intro h; cases h)
          have hlv : vals.length = cfg.totalLength := by
            rw [charValues_length hcv, hl]
          have hnd : vals.dropLast ≠ [] := by
            intro h
            have := congrArg List.length h
            simp [List.length_dropLast, hlv] at this
            omega
          refine ⟨decide (vals.getLast? = some ((10 - luhnSum vals.dropLast % 10) % 10)), ?_⟩
          simp [checkAlgorithm, luhnChecksum_of_ne_nil hnd]
        | mod36 =>
          have h2 : 2 ≤ cfg.totalLength := hlen2 (by rw [halg]; intro h; cases h)
          have hlv : vals.length = cfg.totalLength := by
            rw [charValues_length hcv, hl]
          have hnd : vals.dropLast ≠ [] := by
            intro h
            have := congrArg List.length h
            simp [List.length_dropLast, hlv] at this
            omega
          refine ⟨decide (vals.getLast? = some ((36 - mod36Sum vals.dropLast % 36) % 36)), ?_⟩
          simp [checkAlgorithm, mod36Checksum_of_ne_nil hnd]
  · intro h
    have h' : cand.data.length ≠ cfg.totalLength := h
    rw [hval, if_pos h']
  · intro h
    rw [hval]
    by_cases hl : cand.data.length ≠ cfg.totalLength
    · rw [if_pos hl]
    · rw [if_neg hl, h]
  · intro h
    subst h
    rw [hval, if_pos (by intro h0; rw [← h0] at hL; cases hL)]

/-- Witness for C5 at charset Numeric, algorithm Luhn, groups = 1,
groupSize = 2 and the out-of-alphabet candidate "XY". -/
theorem C5_validate_total_witness :
    (∃ b, validateId "XY" ⟨Charset.numeric, Algorithm.luhn, 1, 2⟩ = .ok b) ∧
    ("XY".length ≠ (⟨Charset.numeric, Algorithm.luhn, 1, 2⟩ : Config).totalLength →
      validateId "XY" ⟨Charset.numeric, Algorithm.luhn, 1, 2⟩ = .ok false) ∧
    (charValues Charset.numeric "XY".data = Option.none →
      validateId "XY" ⟨Charset.numeric, Algorithm.luhn, 1, 2⟩ = .ok false) ∧
    ("XY" = "" → validateId "XY" ⟨Charset.numeric, Algorithm.luhn, 1, 2⟩ = .ok false) := by
  apply C5_validate_total
  · rfl
  · intro h; decide

end StructuredId

namespace StructuredId

theorem digitVal_lt {c : Char} {v : Nat} (h : digitVal c = some v) : v < 10 := by
  have h0 : '0'.toNat = 48 := rfl
  have h9 : '9'.toNat = 57 := rfl
  simp only [digitVal] at h
  split_ifs at h with h1
  injection h with h2
  omega

theorem charValue_lt_base {cs : Charset} {c : Char} {v : Nat}
    (h : charValue cs c = some v) : v < base cs := by
  cases cs
  · rw [base_numeric]
    exact digitVal_lt h
  · rw [base_alphanumeric]
    simp only [charValue] at h
    cases hd : digitVal c with
    | some w =>
      rw [hd] at h
      injection h with h2
      have := digitVal_lt hd
      omega
    | none =>
      rw [hd] at h
      have hA : 'A'.toNat = 65 := rfl
      have hZ : 'Z'.toNat = 90 := rfl
      split_ifs at h with h1
      injection h with h2
      omega

theorem charValues_lt_base {cs : Charset} :
    ∀ {l : List Char} {vals : List Nat}, charValues cs l = some vals →
      ∀ v ∈ vals, v < base cs := by
  intro l
  induction l with
  | nil =>
    intro vals h
    simp only [charValues, Option.some.injEq] at h
    subst h
    intro v hv
    cases hv
  | cons c rest ih =>
    intro vals h
    simp only [charValues] at h
    cases hc : charValue cs c with
    | none => rw [hc] at h; simp at h
    | some v =>
      rw [hc] at h
      cases hr : charValues cs rest with
      | none => rw [hr] at h; simp at h
      | some vs =>
        rw [hr] at h
        simp only [Option.some.injEq] at h
        subst h
        intro x hx
        rcases List.mem_cons.mp hx with rfl | hx
        · exact charValue_lt_base hc
        · exact ih hr x hx


/-! ### Decomposing a successful generation -/

theorem generateId_luhn_decomp {cfg : Config} {source : Nat → Nat} {id : String}
    (halg : cfg.algorithm = Algorithm.luhn)
    (hgen : generateId cfg source = .ok id) :
    ∃ d, luhnChecksum (drawList source (cfg.totalLength - 1)) = .ok d ∧
      id = String.mk
        ((drawList source (cfg.totalLength - 1) ++ [d]).map (idxChar cfg.charset)) := by
  have hres := generateId_resolve hgen
  rw [generateId_unfold hres, halg] at hgen
  cases hck : luhnChecksum (drawList source (cfg.totalLength - 1)) with
  | error e => rw [hck] at hgen; exact Except.noConfusion hgen
  | ok d =>
    rw [hck] at hgen
    injection hgen with hgen
    exact ⟨d, rfl, hgen.symm⟩

theorem generateId_mod36_decomp {cfg : Config} {source : Nat → Nat} {id : String}
    (halg : cfg.algorithm = Algorithm.mod36)
    (hgen : generateId cfg source = .ok id) :
    ∃ d, mod36Checksum (drawList source (cfg.totalLength - 1)) = .ok d ∧
      id = String.mk
        ((drawList source (cfg.totalLength - 1) ++ [d]).map (idxChar cfg.charset)) := by
  have hres := generateId_resolve hgen
  rw [generateId_unfold hres, halg] at hgen
  cases hck : mod36Checksum (drawList source (cfg.totalLength - 1)) with
  | error e => rw [hck] at hgen; exact Except.noConfusion hgen
  | ok d =>
    rw [hck] at hgen
    injection hgen with hgen
    exact ⟨d, rfl, hgen.symm⟩

/-- The validator's verdict on a well-shaped all-alphabet candidate with
a checksum algorithm is exactly the checksum equation over its body. -/
theorem validate_luhn_iff {cfg : Config} {cand : String} {body : List Nat} {d : Nat}
    (halg : cfg.algorithm = Algorithm.luhn)
    (hres : resolveConfig cfg = .ok cfg)
    (hlen : cand.data.length = cfg.totalLength)
    (hcv : charValues cfg.charset cand.data = some (body ++ [d]))
    (hbody : body ≠ []) :
    (validateId cand cfg = .ok true ↔ (luhnSum body + d) % 10 = 0) := by
  have hcompat := (resolveConfig_ok_iff.mp hres).2.1
  have hcs := compat_luhn_numeric (by rw [← halg]; exact hcompat)
  have hd : d < 10 := by
    have := charValues_lt_base hcv d (by simp)
    rwa [hcs, base_numeric] at this
  rw [validateId_unfold hres, if_neg (by simp [hlen]), hcv, halg]
  simp only [checkAlgorithm, List.dropLast_concat, luhnChecksum_of_ne_nil hbody,
    List.getLast?_concat]
  simp only [Except.ok.injEq, decide_eq_true_eq, Option.some.injEq]
  have h10 : luhnSum body % 10 < 10 := Nat.mod_lt _ (by omega)
  constructor
  · intro h; omega
  · intro h; omega

theorem validate_mod36_iff {cfg : Config} {cand : String} {body : List Nat} {d : Nat}
    (halg : cfg.algorithm = Algorithm.mod36)
    (hres : resolveConfig cfg = .ok cfg)
    (hlen : cand.data.length = cfg.totalLength)
    (hcv : charValues cfg.charset cand.data = some (body ++ [d]))
    (hbody : body ≠ []) :
    (validateId cand cfg = .ok true ↔ (mod36Sum body + d) % 36 = 0) := by
  have hcompat := (resolveConfig_ok_iff.mp hres).2.1
  have hcs := compat_mod36_alphanumeric (by rw [← halg]; exact hcompat)
  have hd : d < 36 := by
    have := charValues_lt_base hcv d (by simp)
    rwa [hcs, base_alphanumeric] at this
  rw [validateId_unfold hres, if_neg (by simp [hlen]), hcv, halg]
  simp only [checkAlgorithm, List.dropLast_concat, mod36Checksum_of_ne_nil hbody,
    List.getLast?_concat]
  simp only [Except.ok.injEq, decide_eq_true_eq, Option.some.injEq]
  have h36 : mod36Sum body % 36 < 36 := Nat.mod_lt _ (by omega)
  constructor
  · intro h; omega
  · intro h; omega

end StructuredId

namespace StructuredId

/-- C2: for charset Numeric with algorithm Luhn, the generator appends the
unique digit d in [0,9] with (S + d) mod 10 = 0, where S is luhnSum
(double every second digit from the rightmost body digit leftward,
subtract 9 from doubled values ≥ 10, and sum); validation of a full
well-formed candidate accepts exactly when the equation holds over its
body and final digit; and concretely, with groups = 1, groupSize = 8
generation yields an 8-digit string that validates true while changing
its last digit validates false. -/
theorem C2_luhn_checksum :
    (∀ cfg source id, cfg.charset = Charset.numeric →
      cfg.algorithm = Algorithm.luhn →
      generateId cfg source = .ok id →
      ∃ body d, id = String.mk ((body ++ [d]).map (idxChar Charset.numeric)) ∧
        d < 10 ∧ (luhnSum body + d) % 10 = 0 ∧
        ∀ e, e < 10 → (luhnSum body + e) % 10 = 0 → e = d) ∧
    (∀ cfg cand body d, cfg.algorithm = Algorithm.luhn →
      resolveConfig cfg = .ok cfg → cand.data.length = cfg.totalLength →
      charValues cfg.charset cand.data = some (body ++ [d]) → body ≠ [] →
      (validateId cand cfg = .ok true ↔ (luhnSum body + d) % 10 = 0)) ∧
    (generateId ⟨Charset.numeric, Algorithm.luhn, 1, 8⟩ (fun i => (3 * i + 7) % 10) =
        .ok "70369251" ∧
      "70369251".length = 8 ∧
      validateId "70369251" ⟨Charset.numeric, Algorithm.luhn, 1, 8⟩ = .ok true ∧
      ∀ c ∈ alphabet Charset.numeric, c ≠ '1' →
        validateId (String.mk ("7036925".data ++ [c]))
          ⟨Charset.numeric, Algorithm.luhn, 1, 8⟩ = .ok false) := by
  refine ⟨?_, ?_, by decide, by decide, by decide, by decide⟩
  · intro cfg source id hcs halg hgen
    obtain ⟨d, hck, hid⟩ := generateId_luhn_decomp halg hgen
    obtain ⟨hd, hmod⟩ := luhnChecksum_spec hck
    exact ⟨drawList source (cfg.totalLength - 1), d, by rw [hid, hcs], hd, hmod,
      fun e he hemod => luhn_digit_unique hd he hmod hemod⟩
  · intro cfg cand body d halg hres hlen hcv hbody
    exact validate_luhn_iff halg hres hlen hcv hbody

/-- Witness for C2 at the candidate "18" (body digit 1, checksum 8). -/
theorem C2_luhn_checksum_witness :
    validateId "18" ⟨Charset.numeric, Algorithm.luhn, 1, 2⟩ = .ok true ↔
      (luhnSum [1] + 8) % 10 = 0 := by
  have h := C2_luhn_checksum.2.1
  exact h ⟨Charset.numeric, Algorithm.luhn, 1, 2⟩ "18" [1] 8 rfl rfl (by decide)
    (by decide) (by decide)

end StructuredId

namespace StructuredId

/-- C4: for charset Alphanumeric with algorithm Mod36, the generator
appends the alphabet character of the unique d in [0,35] with
(S + d) mod 36 = 0, where S is mod36Sum (weights cycling 2,1 from the
first body character, products ≥ 36 under weight 2 reduced by 35, then
summed); the value mapping sends '0'..'9' to 0..9 and 'A'..'Z'
(case-folded) to 10..35. -/
theorem C4_mod36_checksum :
    (∀ cfg source id, cfg.charset = Charset.alphanumeric →
      cfg.algorithm = Algorithm.mod36 →
      generateId cfg source = .ok id →
      ∃ body d, id = String.mk ((body ++ [d]).map (idxChar Charset.alphanumeric)) ∧
        d < 36 ∧ (mod36Sum body + d) % 36 = 0 ∧
        ∀ e, e < 36 → (mod36Sum body + e) % 36 = 0 → e = d) ∧
    (∀ v, v < 36 →
      charValue Charset.alphanumeric (idxChar Charset.alphanumeric v) = some v) ∧
    (∀ c ∈ "abcdefghijklmnopqrstuvwxyz".data,
      charValue Charset.alphanumeric c = charValue Charset.alphanumeric c.toUpper) := by
  refine ⟨?_, by decide, by decide⟩
  intro cfg source id hcs halg hgen
  obtain ⟨d, hck, hid⟩ := generateId_mod36_decomp halg hgen
  obtain ⟨hd, hmod⟩ := mod36Checksum_spec hck
  exact ⟨drawList source (cfg.totalLength - 1), d, by rw [hid, hcs], hd, hmod,
    fun e he hemod => mod36_digit_unique hd he hmod hemod⟩

/-- Witness for C4 at groups = 1, groupSize = 2 with the constant source
35: the generated id is "Z1" (body value 35, checksum 1). -/
theorem C4_mod36_checksum_witness :
    ∃ body d,
      ("Z1" : String) = String.mk ((body ++ [d]).map (idxChar Charset.alphanumeric)) ∧
      d < 36 ∧ (mod36Sum body + d) % 36 = 0 ∧
      ∀ e, e < 36 → (mod36Sum body + e) % 36 = 0 → e = d :=
  C4_mod36_checksum.1 ⟨Charset.alphanumeric, Algorithm.mod36, 1, 2⟩ (fun _ => 35) "Z1"
    rfl rfl (by decide)

end StructuredId

namespace StructuredId

/-! ### Luhn detects every single-character substitution -/

theorem luhnSumRev_cons (b : Bool) (v : Nat) (rest : List Nat) :
    luhnSumRev b (v :: rest) =
      (if b then luhnReduce (2 * v) else v) + luhnSumRev (!b) rest := by
  cases b <;> simp [luhnSumRev]

theorem luhnReduce_double_inj :
    ∀ x, x < 10 → ∀ y, y < 10 → x ≠ y →
      luhnReduce (2 * x) % 10 ≠ luhnReduce (2 * y) % 10 := by
  decide

theorem luhnSumRev_single_change :
    ∀ (pre : List Nat) (b : Bool) (x y : Nat) (post : List Nat),
      x < 10 → y < 10 → x ≠ y →
      luhnSumRev b (pre ++ x :: post) % 10 ≠ luhnSumRev b (pre ++ y :: post) % 10 := by
  intro pre
  induction pre with
  | nil =>
    intro b x y post hx hy hxy
    have hinj := luhnReduce_double_inj x hx y hy hxy
    cases b <;> simp only [List.nil_append, luhnSumRev_cons] <;> simp <;> omega
  | cons p pre ih =>
    intro b x y post hx hy hxy
    simp only [List.cons_append, luhnSumRev_cons]
    have := ih (!b) x y post hx hy hxy
    omega

theorem reverse_middle (A B : List Nat) (v : Nat) :
    (A ++ v :: B).reverse = B.reverse ++ v :: A.reverse := by
  simp

theorem luhnSum_set_ne {body : List Nat} {i : Nat} {v : Nat}
    (hi : i < body.length) (hv : v < 10) (hb : body[i] < 10)
    (hne : v ≠ body[i]) :
    luhnSum (body.set i v) % 10 ≠ luhnSum body % 10 := by
  have hset : body.set i v = body.take i ++ v :: body.drop (i + 1) := by
    rw [List.set_eq_take_append_cons_drop, if_pos hi]
  have hbody : body = body.take i ++ body[i] :: body.drop (i + 1) := by
    conv_lhs => rw [← List.take_append_drop i body, List.drop_eq_getElem_cons hi]
  rw [hset]
  conv_rhs => rw [hbody]
  unfold luhnSum
  rw [reverse_middle, reverse_middle]
  exact luhnSumRev_single_change _ true v body[i] _ hv hb hne

/-- The validator's verdict on a well-shaped all-alphabet Luhn candidate
is the checksum equation's truth value. -/
theorem validate_luhn_verdict {cfg : Config} {cand : String} {body : List Nat} {d : Nat}
    (halg : cfg.algorithm = Algorithm.luhn)
    (hres : resolveConfig cfg = .ok cfg)
    (hlen : cand.data.length = cfg.totalLength)
    (hcv : charValues cfg.charset cand.data = some (body ++ [d]))
    (hbody : body ≠ []) :
    validateId cand cfg = .ok (decide ((luhnSum body + d) % 10 = 0)) := by
  have hcompat := (resolveConfig_ok_iff.mp hres).2.1
  have hcs := compat_luhn_numeric (by rw [← halg]; exact hcompat)
  have hd : d < 10 := by
    have := charValues_lt_base hcv d (by simp)
    rwa [hcs, base_numeric] at this
  rw [validateId_unfold hres, if_neg (by simp [hlen]), hcv, halg]
  simp only [checkAlgorithm, List.dropLast_concat, luhnChecksum_of_ne_nil hbody,
    List.getLast?_concat]
  congr 1
  rw [decide_eq_decide, Option.some.injEq]
  have h10 : luhnSum body % 10 < 10 := Nat.mod_lt _ (by omega)
  constructor
  · intro h; omega
  · intro h; omega

/-- Recover the value, bound and inverse rendering of every numeric
alphabet character. -/
theorem alphabet_numeric_inv :
    ∀ c ∈ alphabet Charset.numeric,
      charValue Charset.numeric c = some ((charValue Charset.numeric c).getD 0) ∧
      (charValue Charset.numeric c).getD 0 < 10 ∧
      idxChar Charset.numeric ((charValue Charset.numeric c).getD 0) = c := by
  decide

end StructuredId

namespace StructuredId

theorem set_concat_length (l : List Nat) (d v : Nat) :
    (l ++ [d]).set l.length v = l ++ [v] := by
  rw [List.set_append_right _ _ (le_refl _)]
  simp

/-- C3: for a valid Numeric/Luhn configuration, any identifier produced by
the generator, any position, and any alphabet character different from
the one at that position, the substituted candidate validates false: the
Luhn checksum detects every single-substitution error. -/
theorem C3_luhn_substitution (cfg : Config) (source : Nat → Nat) (id : String)
    (hcs : cfg.charset = Charset.numeric)
    (halg : cfg.algorithm = Algorithm.luhn)
    (hsrc : ∀ j, source j < base cfg.charset)
    (hgen : generateId cfg source = .ok id)
    (i : Nat) (hi : i < id.data.length)
    (c : Char) (hmem : c ∈ alphabet Charset.numeric)
    (hne : c ≠ id.data[i]) :
    validateId (String.mk (id.data.set i c)) cfg = .ok false := by
  have hres := generateId_resolve hgen
  obtain ⟨-, hcompat, hg, hgs⟩ := resolveConfig_ok_iff.mp hres
  have hL : 0 < cfg.totalLength := by
    have := Nat.mul_pos hg hgs
    simpa [Config.totalLength] using this
  obtain ⟨d, hck, hid⟩ := generateId_luhn_decomp halg hgen
  obtain ⟨hd10, hdmod⟩ := luhnChecksum_spec hck
  have hBne := luhnChecksum_ne_nil hck
  set B := drawList source (cfg.totalLength - 1) with hB
  have hBlen : B.length = cfg.totalLength - 1 := drawList_length source _
  have hBpos : 0 < B.length := List.length_pos.mpr hBne
  have hBlt : ∀ x ∈ B, x < 10 := by
    intro x hx
    have := drawList_lt hsrc _ x hx
    rwa [hcs, base_numeric] at this
  obtain ⟨hcv_c, hv10, hidx⟩ := alphabet_numeric_inv c hmem
  set v := (charValue Charset.numeric c).getD 0 with hvdef
  have hdata : id.data = (B ++ [d]).map (idxChar Charset.numeric) := by
    rw [hid, hcs, string_mk_data]
  have hvals_lt : ∀ x ∈ B ++ [d], x < 10 := by
    intro x hx
    rcases List.mem_append.mp hx with h | h
    · exact hBlt x h
    · simp only [List.mem_singleton] at h
      omega
  have hlen_id : id.data.length = cfg.totalLength := by
    rw [hdata]
    simp [hBlen]
    omega
  have hilt : i < B.length + 1 := by
    rw [hlen_id] at hi
    omega
  have hvi : i < (B ++ [d]).length := by
    simp
    omega
  have hval_i : id.data[i] = idxChar Charset.numeric ((B ++ [d])[i]) := by
    rw [List.getElem_of_eq hdata hi, List.getElem_map]
  have hvne : v ≠ (B ++ [d])[i] := by
    intro he
    apply hne
    rw [← hidx, he, hval_i]
  have hsetmap : id.data.set i c = ((B ++ [d]).set i v).map (idxChar Charset.numeric) := by
    rw [hdata, ← hidx, ← List.map_set]
  have hset_lt : ∀ x ∈ (B ++ [d]).set i v, x < 10 := by
    intro x hx
    rcases List.mem_or_eq_of_mem_set hx with h | h
    · exact hvals_lt x h
    · omega
  have hcv' : charValues cfg.charset (String.mk (id.data.set i c)).data =
      some ((B ++ [d]).set i v) := by
    rw [string_mk_data, hsetmap, hcs]
    apply charValues_map_idxChar
    intro x hx
    rw [base_numeric]
    exact hset_lt x hx
  have hlen' : (String.mk (id.data.set i c)).data.length = cfg.totalLength := by
    rw [string_mk_data, List.length_set, hlen_id]
  rcases Nat.lt_or_ge i B.length with hcase | hcase
  · -- substitution inside the body
    have hsplit : (B ++ [d]).set i v = B.set i v ++ [d] :=
      List.set_append_left i v hcase
    have hBi : (B ++ [d])[i] = B[i] := List.getElem_append_left hcase
    have hvne' : v ≠ B[i] := by rw [← hBi]; exact hvne
    have hsum := luhnSum_set_ne hcase hv10 (hBlt _ (List.getElem_mem hcase)) hvne'
    have hB'ne : B.set i v ≠ [] := by
      intro h
      have h2 := congrArg List.length h
      rw [List.length_set, List.length_nil] at h2
      omega
    rw [hsplit] at hcv'
    have hverdict := validate_luhn_verdict halg hres hlen' hcv' hB'ne
    have hne_mod : (luhnSum (B.set i v) + d) % 10 ≠ 0 := by omega
    rw [hverdict, decide_eq_false hne_mod]
  · -- substitution of the checksum character
    have hieq : i = B.length := by omega
    subst hieq
    have hsplit : (B ++ [d]).set B.length v = B ++ [v] := set_concat_length B d v
    have hBi : (B ++ [d])[B.length] = d := List.getElem_concat_length B d B.length rfl _
    have hvne' : v ≠ d := by rw [← hBi]; exact hvne
    rw [hsplit] at hcv'
    have hverdict := validate_luhn_verdict halg hres hlen' hcv' hBne
    have hne_mod : (luhnSum B + v) % 10 ≠ 0 := by omega
    rw [hverdict, decide_eq_false hne_mod]

/-- Witness for C3: generating with the constant source 0 in a 1×2 shape
yields "00"; substituting '5' at position 0 validates false. -/
theorem C3_luhn_substitution_witness :
    validateId (String.mk (("00".data).set 0 '5'))
      ⟨Charset.numeric, Algorithm.luhn, 1, 2⟩ = .ok false := by
  exact C3_luhn_substitution ⟨Charset.numeric, Algorithm.luhn, 1, 2⟩ (fun _ => 0) "00"
    rfl rfl (fun j => by change 0 < base Charset.numeric; decide) (by decide) 0
    (by decide) '5' (by decide) (by decide)

end StructuredId

namespace StructuredId

/-! ### Formatter: inserting and removing separators -/

theorem removeSeps_empty_sep : ∀ l : List Char, removeSeps [] l = l
  | [] => by rw [removeSeps]
  | c :: rest => by
    rw [removeSeps, if_neg (by simp)]
    rw [removeSeps_empty_sep rest]

theorem beginsWith_self_append : ∀ (sep l : List Char), beginsWith sep (sep ++ l) = true
  | [], _ => rfl
  | s :: ss, l => by
    simp only [List.cons_append, beginsWith, beq_self_eq_true, Bool.true_and]
    exact beginsWith_self_append ss l

theorem removeSeps_sep_append (s0 : Char) (sep' l : List Char) :
    removeSeps (s0 :: sep') ((s0 :: sep') ++ l) = removeSeps (s0 :: sep') l := by
  rw [List.cons_append, removeSeps, if_pos]
  · simp [List.drop_left]
  · refine ⟨by simp, ?_⟩
    have := beginsWith_self_append (s0 :: sep') l
    rw [List.cons_append] at this
    simp [this]

theorem removeSeps_append_disjoint (s0 : Char) (sep' : List Char) :
    ∀ (g l : List Char), s0 ∉ g →
      removeSeps (s0 :: sep') (g ++ l) = g ++ removeSeps (s0 :: sep') l
  | [], l, _ => by simp
  | c :: g', l, hg => by
    have hne : s0 ≠ c := fun h => hg (by rw [h]; exact List.mem_cons_self _ _)
    have hg' : s0 ∉ g' := fun h => hg (List.mem_cons_of_mem _ h)
    rw [List.cons_append, removeSeps, if_neg]
    · rw [removeSeps_append_disjoint s0 sep' g' l hg', List.cons_append]
    · rintro ⟨-, hb⟩
      simp only [beginsWith, Bool.and_eq_true, beq_iff_eq] at hb
      exact hne hb.1

theorem joinSep_empty_sep : ∀ gs : List (List Char), joinSep [] gs = gs.flatten
  | [] => rfl
  | [g] => by simp [joinSep]
  | g :: g2 :: gs => by
    rw [joinSep, joinSep_empty_sep (g2 :: gs)]
    simp

theorem removeSeps_joinSep (s0 : Char) (sep' : List Char) :
    ∀ gs : List (List Char), (∀ g ∈ gs, s0 ∉ g) →
      removeSeps (s0 :: sep') (joinSep (s0 :: sep') gs) = gs.flatten
  | [], _ => by rw [joinSep, removeSeps]; rfl
  | [g], h => by
    rw [joinSep, ← List.append_nil g,
      removeSeps_append_disjoint s0 sep' g [] (h g (List.mem_cons_self _ _))]
    simp [removeSeps]
  | g :: g2 :: gs, h => by
    rw [joinSep, List.append_assoc,
      removeSeps_append_disjoint s0 sep' g _ (h g (List.mem_cons_self _ _)),
      removeSeps_sep_append,
      removeSeps_joinSep s0 sep' (g2 :: gs) (fun x hx => h x (List.mem_cons_of_mem _ hx))]
    rfl

theorem flatten_groupChunks :
    ∀ (g k : Nat) (l : List Char), l.length = g * k →
      (groupChunks g k l).flatten = l
  | 0, k, l, h => by
    rw [groupChunks]
    simp only [List.flatten_nil]
    symm
    rw [← List.length_eq_zero]
    omega
  | g + 1, k, l, h => by
    rw [groupChunks, List.flatten_cons,
      flatten_groupChunks g k (l.drop k) (by simp [h]; ring_nf; omega)]
    exact List.take_append_drop k l

theorem groupChunks_chars :
    ∀ (g k : Nat) (l : List Char) (ch : List Char), ch ∈ groupChunks g k l →
      ∀ c ∈ ch, c ∈ l
  | 0, k, l, ch, h => by rw [groupChunks] at h; cases h
  | g + 1, k, l, ch, h => by
    rw [groupChunks] at h
    rcases List.mem_cons.mp h with rfl | h
    · exact fun c hc => List.mem_of_mem_take hc
    · intro c hc
      exact List.mem_of_mem_drop (groupChunks_chars g k (l.drop k) ch h c hc)

end StructuredId

namespace StructuredId

theorem string_eta (s : String) : String.mk s.data = s := rfl

theorem removeSeps_format (cfg : Config) (id sep : String)
    (hid : ∀ c ∈ id.data, c ∈ alphabet cfg.charset)
    (hsep : ∀ c ∈ sep.data, c ∉ alphabet cfg.charset)
    (hlen : id.data.length = cfg.groups * cfg.groupSize) :
    removeSeps sep.data
      (joinSep sep.data (groupChunks cfg.groups cfg.groupSize id.data)) = id.data := by
  cases hs : sep.data with
  | nil =>
    rw [removeSeps_empty_sep, joinSep_empty_sep, flatten_groupChunks _ _ _ hlen]
  | cons s0 sep' =>
    have hs0 : s0 ∉ alphabet cfg.charset := by
      apply hsep
      rw [hs]
      exact List.mem_cons_self _ _
    have hdis : ∀ g ∈ groupChunks cfg.groups cfg.groupSize id.data, s0 ∉ g := by
      intro g hgm hc
      exact hs0 (hid s0 (groupChunks_chars _ _ _ g hgm s0 hc))
    rw [removeSeps_joinSep s0 sep' _ hdis, flatten_groupChunks _ _ _ hlen]

/-- General formatter round trip: for a canonical id of the exact total
length over the alphabet and a separator disjoint from the alphabet,
formatting succeeds and parsing the display form recovers the id. -/
theorem format_parse_general (id : String) (cfg : Config) (sep : String)
    (hlen : id.length = cfg.totalLength)
    (hid : ∀ c ∈ id.data, c ∈ alphabet cfg.charset)
    (hsep : ∀ c ∈ sep.data, c ∉ alphabet cfg.charset) :
    formatId id cfg sep =
      .ok (String.mk (joinSep sep.data (groupChunks cfg.groups cfg.groupSize id.data))) ∧
    parseDisplay
      (String.mk (joinSep sep.data (groupChunks cfg.groups cfg.groupSize id.data)))
      cfg sep = .ok id := by
  have hlen' : id.data.length = cfg.totalLength := hlen
  have hrm := removeSeps_format cfg id sep hid hsep hlen'
  constructor
  · unfold formatId
    rw [if_neg (by simp [hlen])]
  · unfold parseDisplay
    rw [string_mk_data, hrm, if_neg (by simp [hlen']), string_eta]

end StructuredId

namespace StructuredId

/-- C6: parsing the formatted display form recovers the canonical id for
every id of exactly totalLength, every configuration, and every separator
disjoint from the alphabet; concretely, with groups = 4, groupSize = 4,
separator "-", the format of a 16-character canonical id inserts exactly
3 separators, one after each 4 canonical characters, and parses back to
the original id. -/
theorem C6_format_parse :
    (∀ (id : String) (cfg : Config) (sep : String),
      id.length = cfg.totalLength →
      (∀ c ∈ id.data, c ∈ alphabet cfg.charset) →
      (∀ c ∈ sep.data, c ∉ alphabet cfg.charset) →
      ∃ f, formatId id cfg sep = .ok f ∧ parseDisplay f cfg sep = .ok id) ∧
    (∀ id : String, id.length = 16 →
      (∀ c ∈ id.data, c ∈ alphabet Charset.alphanumeric) →
      ∃ f, formatId id ⟨Charset.alphanumeric, Algorithm.mod36, 4, 4⟩ "-" = .ok f ∧
        f.data = id.data.take 4 ++ '-' ::
          ((id.data.drop 4).take 4 ++ '-' ::
            (((id.data.drop 4).drop 4).take 4 ++ '-' ::
              (((id.data.drop 4).drop 4).drop 4).take 4)) ∧
        f.data.count '-' = 3 ∧
        parseDisplay f ⟨Charset.alphanumeric, Algorithm.mod36, 4, 4⟩ "-" = .ok id) := by
  constructor
  · intro id cfg sep hlen hid hsep
    obtain ⟨hf, hp⟩ := format_parse_general id cfg sep hlen hid hsep
    exact ⟨_, hf, hp⟩
  · intro id hlen hid
    have hsep : ∀ c ∈ ("-" : String).data, c ∉ alphabet Charset.alphanumeric := by decide
    obtain ⟨hf, hp⟩ :=
      format_parse_general id ⟨Charset.alphanumeric, Algorithm.mod36, 4, 4⟩ "-" hlen hid hsep
    have hnm : '-' ∉ id.data := fun h =>
      absurd (hid '-' h) (by decide)
    have hstruct :
        joinSep ("-" : String).data (groupChunks 4 4 id.data) =
          id.data.take 4 ++ '-' ::
            ((id.data.drop 4).take 4 ++ '-' ::
              (((id.data.drop 4).drop 4).take 4 ++ '-' ::
                (((id.data.drop 4).drop 4).drop 4).take 4)) := by
      show joinSep ['-']
        [id.data.take 4, (id.data.drop 4).take 4, ((id.data.drop 4).drop 4).take 4,
          (((id.data.drop 4).drop 4).drop 4).take 4] = _
      simp [joinSep]
    have hc1 : (id.data.take 4).count '-' = 0 :=
      List.count_eq_zero.mpr (fun h => hnm (List.mem_of_mem_take h))
    have hc2 : ((id.data.drop 4).take 4).count '-' = 0 :=
      List.count_eq_zero.mpr (fun h => hnm (List.mem_of_mem_drop (List.mem_of_mem_take h)))
    have hc3 : ((id.data.drop 8).take 4).count '-' = 0 :=
      List.count_eq_zero.mpr (fun h => hnm (List.mem_of_mem_drop (List.mem_of_mem_take h)))
    have hc4 : ((id.data.drop 12).take 4).count '-' = 0 :=
      List.count_eq_zero.mpr (fun h => hnm (List.mem_of_mem_drop (List.mem_of_mem_take h)))
    refine ⟨_, hf, ?_, ?_, hp⟩
    · rw [string_mk_data]
      exact hstruct
    · rw [string_mk_data, hstruct]
      simp [List.count_append, List.count_cons, hc1, hc2, hc3, hc4]

/-- Witness for C6 at the canonical id "0123456789ABCDEF" with groups = 4,
groupSize = 4 and separator "-". -/
theorem C6_format_parse_witness :
    ∃ f, formatId "0123456789ABCDEF" ⟨Charset.alphanumeric, Algorithm.mod36, 4, 4⟩ "-" =
        .ok f ∧
      parseDisplay f ⟨Charset.alphanumeric, Algorithm.mod36, 4, 4⟩ "-" =
        .ok "0123456789ABCDEF" :=
  C6_format_parse.1 "0123456789ABCDEF" ⟨Charset.alphanumeric, Algorithm.mod36, 4, 4⟩ "-"
    (by decide) (by decide) (by decide)

end StructuredId

namespace StructuredId

/-- C7: formatId fails with ShapeMismatch exactly when the canonical
length differs from totalLength; on success the output is the grouped
form whose groups reassemble to exactly the input (no truncation or
padding); and the demo's pretty display catches the failure and shows
the raw id unchanged. -/
theorem C7_format_shape_mismatch :
    (∀ (canonical : String) (cfg : Config) (sep : String),
      (formatId canonical cfg sep = .error .ShapeMismatch ↔
        canonical.length ≠ cfg.totalLength)) ∧
    (∀ (canonical : String) (cfg : Config) (sep : String) (f : String),
      formatId canonical cfg sep = .ok f →
      f.data = joinSep sep.data (groupChunks cfg.groups cfg.groupSize canonical.data) ∧
      (groupChunks cfg.groups cfg.groupSize canonical.data).flatten = canonical.data) ∧
    (∀ (id : String) (cfg : Config) (sep : String), id ≠ "" →
      formatId id cfg sep = .error .ShapeMismatch → pretty id cfg sep = id) ∧
    (∀ (id : String) (cfg : Config) (sep : String) (f : String), id ≠ "" →
      formatId id cfg sep = .ok f → pretty id cfg sep = f) := by
  refine ⟨?_, ?_, ?_, ?_⟩
  · intro canonical cfg sep
    unfold formatId
    by_cases h : canonical.length ≠ cfg.totalLength
    · rw [if_pos h]
      simp [h]
    · rw [if_neg h]
      simp [h]
  · intro canonical cfg sep f hok
    unfold formatId at hok
    split_ifs at hok with h
    push_neg at h
    injection hok with hok
    subst hok
    exact ⟨rfl, flatten_groupChunks _ _ _ h⟩
  · intro id cfg sep hne herr
    unfold pretty
    rw [if_neg hne, herr]
  · intro id cfg sep f hne hok
    unfold pretty
    rw [if_neg hne, hok]

/-- Witness for C7: with groups = 4, groupSize = 4 the 2-character id
"AB" cannot be formatted and the demo shows it raw. -/
theorem C7_format_shape_mismatch_witness :
    pretty "AB" ⟨Charset.alphanumeric, Algorithm.none, 4, 4⟩ "-" = "AB" :=
  C7_format_shape_mismatch.2.2.1 "AB" ⟨Charset.alphanumeric, Algorithm.none, 4, 4⟩ "-"
    (by decide) (by decide)

end StructuredId

namespace StructuredId

/-! ### The demo UI invariant -/

theorem one_le_sanitizeNumberInput (v : Option ℚ) : 1 ≤ sanitizeNumberInput v :=
  le_max_left _ _

theorem demoInv_init : demoInv demoInit := by
  unfold demoInv demoInit
  refine ⟨by norm_num, by norm_num, rfl⟩

theorem demoInv_step {s : DemoState} {e : DemoEvent} (h : demoInv s)
    (hleg : LegalEvent s e) : demoInv (demoStep s e) := by
  obtain ⟨cs, alg, g, gs⟩ := s
  obtain ⟨h1, h2, h3⟩ := h
  cases e with
  | setCharset c =>
    refine ⟨h1, h2, ?_⟩
    cases c <;> cases alg <;> simp [demoStep, compat]
  | setAlgorithm a =>
    have hmem : a ∈ algoOptions cs := hleg
    refine ⟨h1, h2, ?_⟩
    cases cs <;> simp [algoOptions] at hmem <;> rcases hmem with rfl | rfl <;> rfl
  | setGroups v => exact ⟨one_le_sanitizeNumberInput v, h2, h3⟩
  | setGroupSize v => exact ⟨h1, one_le_sanitizeNumberInput v, h3⟩

theorem demoInv_reachable : ∀ s, DemoReachable s → demoInv s := by
  intro s h
  induction h with
  | init => exact demoInv_init
  | step _ hleg ih => exact demoInv_step ih hleg

/-- C9: every configuration state the demo UI can reach keeps groups ≥ 1,
groupSize ≥ 1 and an algorithm compatible with the charset (number inputs
clamp through Math.max(1, Number(v) || 1), the algorithm selector offers
only the legal options, and switching charset resets an incompatible
algorithm), so the library's InvalidShape and IncompatibleAlgorithm
resolution errors are unreachable from the UI. -/
theorem C9_demo_config_invariant :
    demoInv demoInit ∧
    (∀ s e, demoInv s → LegalEvent s e → demoInv (demoStep s e)) ∧
    (∀ s, DemoReachable s → demoInv s) ∧
    (∀ s, DemoReachable s → ∀ g gs : Nat, (g : ℚ) = s.groups → (gs : ℚ) = s.groupSize →
      resolveConfig ⟨s.charset, s.algorithm, g, gs⟩ =
        .ok ⟨s.charset, s.algorithm, g, gs⟩) := by
  refine ⟨demoInv_init, fun s e h hleg => demoInv_step h hleg, demoInv_reachable, ?_⟩
  intro s hs g gs hg hgs
  obtain ⟨h1, h2, h3⟩ := demoInv_reachable s hs
  apply resolveConfig_ok h3
  · have hq : (1 : ℚ) ≤ (g : ℚ) := by rw [hg]; exact h1
    exact_mod_cast hq
  · have hq : (1 : ℚ) ≤ (gs : ℚ) := by rw [hgs]; exact h2
    exact_mod_cast hq

/-- Witness for C9 at the initial demo state (numeric, no checksum,
4 × 4). -/
theorem C9_demo_config_invariant_witness :
    resolveConfig ⟨demoInit.charset, demoInit.algorithm, 4, 4⟩ =
      .ok ⟨demoInit.charset, demoInit.algorithm, 4, 4⟩ :=
  C9_demo_config_invariant.2.2.2 demoInit DemoReachable.init 4 4
    (by norm_num [demoInit]) (by norm_num [demoInit])

/-- C10: the demo's validate action validates the typed string when the
field is non-empty and the freshly generated id when it is empty
(target = toValidate || id), and stores exactly the boolean returned by
validateId in the result state, leaving the other fields unchanged. -/
theorem C10_handle_validate (cfg : Config) (s s' : ValidateUIState)
    (h : handleValidateAction cfg s = .ok s') :
    (s.toValidate = "" → ∃ b, validateId s.id cfg = .ok b ∧ s'.isValid = some b) ∧
    (s.toValidate ≠ "" → ∃ b, validateId s.toValidate cfg = .ok b ∧ s'.isValid = some b) ∧
    s'.id = s.id ∧ s'.toValidate = s.toValidate := by
  unfold handleValidateAction at h
  cases hv : validateId (if s.toValidate = "" then s.id else s.toValidate) cfg with
  | error e => rw [hv] at h; exact Except.noConfusion h
  | ok b =>
    rw [hv] at h
    injection h with h
    subst h
    refine ⟨?_, ?_, rfl, rfl⟩
    · intro ht
      rw [if_pos ht] at hv
      exact ⟨b, hv, rfl⟩
    · intro ht
      rw [if_neg ht] at hv
      exact ⟨b, hv, rfl⟩

/-- Witness for C10: with an empty input field, the generated id "7" is
validated in its place and the result state records true. -/
theorem C10_handle_validate_witness :
    ((⟨"7", "", Option.none⟩ : ValidateUIState).toValidate = "" →
      ∃ b, validateId (⟨"7", "", Option.none⟩ : ValidateUIState).id
          ⟨Charset.numeric, Algorithm.none, 1, 1⟩ = .ok b ∧
        (⟨"7", "", some true⟩ : ValidateUIState).isValid = some b) ∧
    ((⟨"7", "", Option.none⟩ : ValidateUIState).toValidate ≠ "" →
      ∃ b, validateId (⟨"7", "", Option.none⟩ : ValidateUIState).toValidate
          ⟨Charset.numeric, Algorithm.none, 1, 1⟩ = .ok b ∧
        (⟨"7", "", some true⟩ : ValidateUIState).isValid = some b) ∧
    (⟨"7", "", some true⟩ : ValidateUIState).id =
      (⟨"7", "", Option.none⟩ : ValidateUIState).id ∧
    (⟨"7", "", some true⟩ : ValidateUIState).toValidate =
      (⟨"7", "", Option.none⟩ : ValidateUIState).toValidate :=
  C10_handle_validate ⟨Charset.numeric, Algorithm.none, 1, 1⟩
    ⟨"7", "", Option.none⟩ ⟨"7", "", some true⟩ (by decide)

end StructuredId
